import Mathlib

/-!
Verification of the Lark webhook notifier action (`src/main.ts` / `src/lark.ts`)
against its natural-language specification.

The TypeScript source is shallowly embedded below:

* JSON values (`JSONValue`) model the JS JSON value domain.  JS numbers are
  IEEE-754 doubles; they are modeled here as decimal fixed-point rationals
  (`JsNumber`, mantissa times 10^-scale).  No verified claim depends on
  float rounding or on JS float formatting, and distinct decimal spellings
  of the same double are never compared across parses by any claim.
* JS string builtins (`trim`, `split(/\r?\n/)`, `slice(1,-1)`, `parseInt`)
  and `JSON.parse` / `JSON.stringify` are embedded as executable Lean
  functions over `List Char` with their documented semantics (Unicode
  whitespace classes beyond the ASCII set and lone UTF-16 surrogates are
  outside the model; no claim exercises them).
* Recursive functions are written with explicit structural fuel so that
  every definition evaluates by kernel reduction on concrete inputs.
-/

/-- A JS number, modeled as `mant * 10 ^ (-scale)` (decimal fixed point). -/
structure JsNumber where
  mant : Int
  scale : Nat
deriving DecidableEq, Repr

/-- The JSON value domain of the TypeScript source (`type JSONValue` in
`src/lark.ts`): string, number, boolean, null, array, object. Objects keep
insertion order, as JS objects (with string keys) do. -/
inductive JSONValue where
  | str (s : String)
  | num (n : JsNumber)
  | bool (b : Bool)
  | null
  | arr (l : List JSONValue)
  | obj (kvs : List (String × JSONValue))

/-- The whitespace class of JS `String.prototype.trim` and of the regex
class `\s`, restricted to its ASCII members (space, tab, LF, VT, FF, CR).
Non-ASCII Unicode space characters are outside the model. -/
def isJsWs (c : Char) : Bool :=
  c = ' ' ∨ c = '\t' ∨ c = '\n' ∨ c = '\r' ∨ c = '\x0b' ∨ c = '\x0c'

/-- The whitespace accepted between tokens by `JSON.parse`
(space, tab, LF, CR only, per the JSON grammar). -/
def isJsonWs (c : Char) : Bool :=
  c = ' ' ∨ c = '\t' ∨ c = '\n' ∨ c = '\r'

/-- JS `String.prototype.trim` on the underlying character list. -/
def jsTrimList (cs : List Char) : List Char :=
  ((cs.dropWhile isJsWs).reverse.dropWhile isJsWs).reverse

/-- JS `String.prototype.trim`. -/
def jsTrim (s : String) : String := ⟨jsTrimList s.data⟩

/-- JS `String.prototype.slice(1, -1)`: drop the first and the last
character (empty result on strings of length below two). -/
def jsSlice1m1 (s : String) : String := ⟨(s.data.drop 1).dropLast⟩

/-- Decimal digit list to the natural number it denotes (most significant
digit first). -/
def digitsToNat (ds : List Char) : Nat :=
  ds.foldl (fun acc c => acc * 10 + (c.toNat - 48)) 0

/-- Lower-case hexadecimal digit character for a nibble. -/
def hexDigitChar (n : Nat) : Char :=
  if n < 10 then Char.ofNat (48 + n) else Char.ofNat (87 + n)

/-- Four lower-case hex digits, as `JSON.stringify` emits in `\uXXXX`. -/
def hex4 (n : Nat) : List Char :=
  [hexDigitChar (n / 4096 % 16), hexDigitChar (n / 256 % 16),
   hexDigitChar (n / 16 % 16), hexDigitChar (n % 16)]

/-- The escape `JSON.stringify` applies to one character of a string:
`"` and `\` get a backslash escape, the five named control characters get
their short escapes, other control characters below U+0020 get `\uXXXX`,
and every other character is emitted literally. -/
def jsonEscapeChar (c : Char) : List Char :=
  if c = '"' then ['\\', '"']
  else if c = '\\' then ['\\', '\\']
  else if c = '\x08' then ['\\', 'b']
  else if c = '\t' then ['\\', 't']
  else if c = '\n' then ['\\', 'n']
  else if c = '\x0c' then ['\\', 'f']
  else if c = '\r' then ['\\', 'r']
  else if c.toNat < 32 then '\\' :: 'u' :: hex4 c.toNat
  else [c]

/-- `jsonEscapeChar` mapped over a character list. -/
def escList : List Char → List Char
  | [] => []
  | c :: cs => jsonEscapeChar c ++ escList cs

/-- The body of the JSON string literal `JSON.stringify` produces for `s`
(everything strictly between the two surrounding quotes). -/
def jsonEscapeString (s : String) : String := ⟨escList s.data⟩

/-- Join with comma separators (JS `Array.prototype.join(",")` shape). -/
def joinComma : List String → String
  | [] => ""
  | [s] => s
  | s :: rest => s ++ "," ++ joinComma rest

/-- Decimal rendering of a `JsNumber`, approximating JS number-to-string
formatting on the decimal fixed-point model (sign, integer digits, and a
fractional part when the scale is positive). -/
def jsNumToString (n : JsNumber) : String :=
  if n.scale = 0 then toString n.mant
  else
    let ds := toString n.mant.natAbs
    let ds := if n.scale + 1 ≤ ds.length then ds
              else ⟨List.replicate (n.scale + 1 - ds.length) '0'⟩ ++ ds
    (if n.mant < 0 then "-" else "") ++
      (⟨ds.data.take (ds.data.length - n.scale)⟩ : String) ++ "." ++
      (⟨ds.data.drop (ds.data.length - n.scale)⟩ : String)

mutual

/-- `JSON.stringify` on a JSON value: quoted escaped strings, decimal
numbers, `true`/`false`/`null`, arrays and objects with comma-separated
members in insertion order and no added whitespace. -/
def jsonStringify : JSONValue → String
  | .str s => "\"" ++ jsonEscapeString s ++ "\""
  | .num n => jsNumToString n
  | .bool b => if b then "true" else "false"
  | .null => "null"
  | .arr l => "[" ++ stringifyArr l ++ "]"
  | .obj kvs => "\x7b" ++ stringifyFields kvs ++ "\x7d"

/-- Comma-separated serialization of array elements. -/
def stringifyArr : List JSONValue → String
  | [] => ""
  | [v] => jsonStringify v
  | v :: vs => jsonStringify v ++ "," ++ stringifyArr vs

/-- Comma-separated serialization of object members. -/
def stringifyFields : List (String × JSONValue) → String
  | [] => ""
  | [(k, v)] => "\"" ++ jsonEscapeString k ++ "\":" ++ jsonStringify v
  | (k, v) :: kvs =>
      "\"" ++ jsonEscapeString k ++ "\":" ++ jsonStringify v ++ "," ++
        stringifyFields kvs

end

/-- The `jstr` Handlebars helper registered in `buildBodyFromTemplate`
(`src/lark.ts` line 150): `JSON.stringify(v).slice(1, -1)`. -/
def jstrHelper (v : JSONValue) : String := jsSlice1m1 (jsonStringify v)

/-- The `json` Handlebars helper registered in `buildBodyFromTemplate`
(`src/lark.ts` line 145): `JSON.stringify(v)`. -/
def jsonHelper (v : JSONValue) : String := jsonStringify v

mutual

/-- Default string conversion Handlebars applies to a plain placeholder
value (with `noEscape` set, no HTML escaping happens): strings verbatim,
numbers and booleans via JS coercion, `null` and missing values as the
empty string, arrays joined with commas, objects as `[object Object]`. -/
def hbToString : JSONValue → String
  | .str s => s
  | .num n => jsNumToString n
  | .bool b => if b then "true" else "false"
  | .null => ""
  | .arr l => hbJoinArr l
  | .obj _ => "[object Object]"

/-- JS `Array.prototype.join(",")` of the elements' string conversions. -/
def hbJoinArr : List JSONValue → String
  | [] => ""
  | [v] => hbToString v
  | v :: vs => hbToString v ++ "," ++ hbJoinArr vs

end

/-- JS property assignment `o[k] = v` on an insertion-ordered object: an
existing key keeps its slot and gets the new value, a new key is appended. -/
def objSet : List (String × JSONValue) → String → JSONValue → List (String × JSONValue)
  | [], k, v => [(k, v)]
  | (k', v') :: rest, k, v =>
      if k' = k then (k', v) :: rest else (k', v') :: objSet rest k v

/-- JS property lookup `o[k]` on an insertion-ordered object. -/
def objLookup : List (String × JSONValue) → String → Option JSONValue
  | [], _ => none
  | (k', v') :: rest, k => if k' = k then some v' else objLookup rest k

/-- Hexadecimal digit predicate (for `\uXXXX` escapes). -/
def isHexDigit (c : Char) : Bool :=
  ('0' ≤ c ∧ c ≤ '9') ∨ ('a' ≤ c ∧ c ≤ 'f') ∨ ('A' ≤ c ∧ c ≤ 'F')

/-- Value of a hexadecimal digit character. -/
def hexDigitVal (c : Char) : Nat :=
  if '0' ≤ c ∧ c ≤ '9' then c.toNat - 48
  else if 'a' ≤ c ∧ c ≤ 'f' then c.toNat - 87
  else if 'A' ≤ c ∧ c ≤ 'F' then c.toNat - 55
  else 0

/-- Decoding of a single-character JSON string escape (`\"`, `\\`, `\/`,
`\b`, `\f`, `\n`, `\r`, `\t`). -/
def escDecode (e : Char) : Option Char :=
  if e = '"' then some '"'
  else if e = '\\' then some '\\'
  else if e = '/' then some '/'
  else if e = 'b' then some '\x08'
  else if e = 'f' then some '\x0c'
  else if e = 'n' then some '\n'
  else if e = 'r' then some '\r'
  else if e = 't' then some '\t'
  else none

/-- Lexer for the body of a JSON string literal, entered just after the
opening quote. Returns the decoded character list and the input remaining
after the closing quote. Four-digit `\uXXXX` escapes decode through
`Char.ofNat` (surrogate-pair recombination of UTF-16 escapes is outside
the model; no claim exercises it). Raw control characters are rejected,
as `JSON.parse` rejects them. -/
def lexString : List Char → Option (List Char × List Char)
  | [] => none
  | c :: cs =>
    if c = '"' then some ([], cs)
    else if c = '\\' then
      match cs with
      | [] => none
      | 'u' :: a :: b :: c2 :: d :: cs' =>
          if isHexDigit a ∧ isHexDigit b ∧ isHexDigit c2 ∧ isHexDigit d then
            (fun p => (Char.ofNat
              (((hexDigitVal a * 16 + hexDigitVal b) * 16 + hexDigitVal c2) * 16
                + hexDigitVal d) :: p.1, p.2)) <$> lexString cs'
          else none
      | e :: cs' =>
          match escDecode e with
          | some ch => (fun p => (ch :: p.1, p.2)) <$> lexString cs'
          | none => none
    else if c.toNat < 32 then none
    else (fun p => (c :: p.1, p.2)) <$> lexString cs

/-- Lexer for a JSON number token (entered at its first character, `-` or a
digit): optional minus, integer digits without a superfluous leading zero,
optional fraction, optional exponent. Returns the number and the rest. -/
def lexNumber (cs : List Char) : Option (JsNumber × List Char) :=
  let (neg, cs1) := match cs with | '-' :: r => (true, r) | _ => (false, cs)
  let ip := cs1.takeWhile Char.isDigit
  let rest1 := cs1.dropWhile Char.isDigit
  if ip = [] then none
  else if 2 ≤ ip.length ∧ ip.head? = some '0' then none
  else
    let frOpt : Option (List Char × List Char) :=
      match rest1 with
      | '.' :: r =>
          let fr := r.takeWhile Char.isDigit
          if fr = [] then none else some (fr, r.dropWhile Char.isDigit)
      | _ => some ([], rest1)
    match frOpt with
    | none => none
    | some (fr, rest2) =>
      let expOpt : Option (Int × List Char) :=
        match rest2 with
        | 'e' :: r | 'E' :: r =>
            let (eneg, r1) := match r with
              | '-' :: r' => (true, r')
              | '+' :: r' => (false, r')
              | _ => (false, r)
            let ed := r1.takeWhile Char.isDigit
            if ed = [] then none
            else
              let e : Int := Int.ofNat (digitsToNat ed)
              some (if eneg then -e else e, r1.dropWhile Char.isDigit)
        | _ => some (0, rest2)
      match expOpt with
      | none => none
      | some (e, rest3) =>
        let m : Int := Int.ofNat (digitsToNat (ip ++ fr))
        let m := if neg then -m else m
        let t : Int := e - Int.ofNat fr.length
        if 0 ≤ t then some (⟨m * 10 ^ t.toNat, 0⟩, rest3)
        else some (⟨m, (-t).toNat⟩, rest3)

/-- Skipping of inter-token whitespace, as `JSON.parse` does. -/
def skipWs (cs : List Char) : List Char := cs.dropWhile isJsonWs

mutual

/-- Recursive-descent embedding of `JSON.parse`, entered at the first
character of a value (whitespace already skipped). The fuel argument is
structural so that the parser evaluates by kernel reduction; `jsonParseE`
supplies more than enough of it. Parse-failure descriptions approximate
the engine-specific `JSON.parse` error messages. -/
def parseVal : Nat → List Char → Except String (JSONValue × List Char)
  | 0, _ => .error "JSON nesting too deep"
  | _ + 1, [] => .error "Unexpected end of JSON input"
  | fuel + 1, c :: cs =>
    if c = '"' then
      match lexString cs with
      | some (body, rest) => .ok (.str ⟨body⟩, rest)
      | none => .error "Unterminated string in JSON"
    else if c = 't' then
      match cs with
      | 'r' :: 'u' :: 'e' :: rest => .ok (.bool true, rest)
      | _ => .error "Unexpected token t in JSON"
    else if c = 'f' then
      match cs with
      | 'a' :: 'l' :: 's' :: 'e' :: rest => .ok (.bool false, rest)
      | _ => .error "Unexpected token f in JSON"
    else if c = 'n' then
      match cs with
      | 'u' :: 'l' :: 'l' :: rest => .ok (.null, rest)
      | _ => .error "Unexpected token n in JSON"
    else if c = '[' then
      match skipWs cs with
      | ']' :: rest => .ok (.arr [], rest)
      | cs' => parseArrLoop fuel cs' []
    else if c = '\x7b' then
      match skipWs cs with
      | '\x7d' :: rest => .ok (.obj [], rest)
      | cs' => parseObjLoop fuel cs' []
    else if c = '-' ∨ c.isDigit then
      match lexNumber (c :: cs) with
      | some (n, rest) => .ok (.num n, rest)
      | none => .error "Invalid number in JSON"
    else .error ("Unexpected token " ++ String.singleton c ++ " in JSON")

/-- Array elements after `[` (or after a comma), whitespace skipped. -/
def parseArrLoop : Nat → List Char → List JSONValue →
    Except String (JSONValue × List Char)
  | 0, _, _ => .error "JSON nesting too deep"
  | fuel + 1, cs, acc =>
    match parseVal fuel cs with
    | .error e => .error e
    | .ok (v, rest) =>
      match skipWs rest with
      | ',' :: rest' => parseArrLoop fuel (skipWs rest') (acc ++ [v])
      | ']' :: rest' => .ok (.arr (acc ++ [v]), rest')
      | _ => .error "Expected comma or closing bracket in JSON array"

/-- Object members after the opening brace (or after a comma), whitespace
skipped. Duplicate keys overwrite, as in `JSON.parse` (last value wins,
first slot kept). -/
def parseObjLoop : Nat → List Char → List (String × JSONValue) →
    Except String (JSONValue × List Char)
  | 0, _, _ => .error "JSON nesting too deep"
  | fuel + 1, cs, acc =>
    match cs with
    | '"' :: cs1 =>
      match lexString cs1 with
      | none => .error "Unterminated string in JSON"
      | some (key, rest) =>
        match skipWs rest with
        | ':' :: rest2 =>
          match parseVal fuel (skipWs rest2) with
          | .error e => .error e
          | .ok (v, rest3) =>
            match skipWs rest3 with
            | ',' :: r => parseObjLoop fuel (skipWs r) (objSet acc ⟨key⟩ v)
            | '\x7d' :: r => .ok (.obj (objSet acc ⟨key⟩ v), r)
            | _ => .error "Expected comma or closing brace in JSON object"
        | _ => .error "Expected colon in JSON object"
    | _ => .error "Expected string key in JSON object"

end

/-- `JSON.parse` on a whole string: skip whitespace, parse one value,
require only whitespace after it. Returns the value or a parse-failure
description. -/
def jsonParseE (s : String) : Except String JSONValue :=
  match parseVal (2 * s.data.length + 8) (skipWs s.data) with
  | .error e => .error e
  | .ok (v, rest) =>
      if skipWs rest = [] then .ok v
      else .error "Unexpected non-whitespace character after JSON data"

/-- The value-coercion rules of `coerceValue` (`src/lark.ts` lines 76-88):
literal `true`/`false`/`null`; else a number when the raw string matches
the decimal pattern of the source regex; else a successful `JSON.parse`
result; else the raw string itself. -/
def matchesDecimal (cs : List Char) : Bool :=
  let cs1 := match cs with | '-' :: r => r | _ => cs
  let ip := cs1.takeWhile Char.isDigit
  let rest := cs1.dropWhile Char.isDigit
  decide (ip ≠ []) &&
    (match rest with
     | [] => true
     | '.' :: fr => decide (fr ≠ []) && fr.all Char.isDigit
     | _ => false)

/-- The number a decimal string denotes (used by the regex branch of
`coerceValue`; JS `Number(raw)` on a `^-?\d+(\.\d+)?$` match). -/
def jsNumOfDecimal (cs : List Char) : JsNumber :=
  let (neg, cs1) := match cs with | '-' :: r => (true, r) | _ => (false, cs)
  let ip := cs1.takeWhile Char.isDigit
  let fr := match cs1.dropWhile Char.isDigit with | '.' :: f => f | _ => []
  let m : Int := Int.ofNat (digitsToNat (ip ++ fr))
  ⟨if neg then -m else m, fr.length⟩

/-- `coerceValue` from `src/lark.ts` lines 76-88. The source also checks
`!Number.isNaN(Number(raw))`, which always holds on a regex match and is
therefore not modeled separately. -/
def coerceValue (raw : String) : JSONValue :=
  if raw = "true" then .bool true
  else if raw = "false" then .bool false
  else if raw = "null" then .null
  else if matchesDecimal raw.data then .num (jsNumOfDecimal raw.data)
  else
    match jsonParseE raw with
    | .ok v => v
    | .error _ => .str raw

/-- JS `input.split(/\r?\n/)` on the character list: split on `\n`,
consuming an immediately preceding `\r`; a lone `\r` is ordinary content. -/
def splitLinesList : List Char → List (List Char)
  | [] => [[]]
  | '\r' :: '\n' :: cs => [] :: splitLinesList cs
  | '\n' :: cs => [] :: splitLinesList cs
  | c :: cs =>
    match splitLinesList cs with
    | [] => [[c]]
    | l :: ls => (c :: l) :: ls

/-- Split a line at the first `=` or `:` character, returning the raw key
part and the raw value part. This is the functional content of matching
the source regex `^(.*?)\s*([=:])\s*(.*)$`: the lazy key group makes the
match land on the first separator character, and the `\s*` trimming is
subsumed by the `.trim()` the source applies to both captured groups. A
line without a separator does not match. -/
def firstSepSplit : List Char → Option (List Char × List Char)
  | [] => none
  | c :: cs =>
    if c = '=' ∨ c = ':' then some ([], cs)
    else (fun p => (c :: p.1, p.2)) <$> firstSepSplit cs

/-- The key/value fallback of `parseVariables` (`src/lark.ts` lines
108-122): split into lines, trim, drop blank lines and `#` comments, then
for each matching line assign the trimmed key to the coerced trimmed
value (later duplicates overwrite). -/
def kvLinesVars (input : List Char) : List (String × JSONValue) :=
  let lines := (splitLinesList input).map jsTrimList
  let lines := lines.filter fun l => decide (l ≠ []) && decide (l.head? ≠ some '#')
  lines.foldl
    (fun vars line =>
      match firstSepSplit line with
      | none => vars
      | some (k, rest) =>
          objSet vars ⟨jsTrimList k⟩ (coerceValue ⟨jsTrimList rest⟩))
    []

/-- UTF-8 encoding of one Unicode scalar value. -/
def utf8Char (c : Char) : List Nat :=
  let n := c.toNat
  if n < 128 then [n]
  else if n < 2048 then [192 + n / 64, 128 + n % 64]
  else if n < 65536 then [224 + n / 4096, 128 + n / 64 % 64, 128 + n % 64]
  else [240 + n / 262144, 128 + n / 4096 % 64, 128 + n / 64 % 64, 128 + n % 64]

/-- UTF-8 encoding of a character list. -/
def utf8List : List Char → List Nat
  | [] => []
  | c :: cs => utf8Char c ++ utf8List cs

/-- UTF-8 byte sequence of a string (what `node:crypto` hashes for string
inputs). -/
def utf8Bytes (s : String) : List Nat := utf8List s.data

/-- 2^32, the word modulus of SHA-256. -/
def M32 : Nat := 4294967296

/-- 32-bit rotate right (arguments below 2^32). -/
def rotr (n x : Nat) : Nat := (x >>> n) ||| ((x <<< (32 - n)) % M32)

/-- SHA-256 big sigma 0. -/
def bsig0 (x : Nat) : Nat := rotr 2 x ^^^ rotr 13 x ^^^ rotr 22 x

/-- SHA-256 big sigma 1. -/
def bsig1 (x : Nat) : Nat := rotr 6 x ^^^ rotr 11 x ^^^ rotr 25 x

/-- SHA-256 small sigma 0. -/
def ssig0 (x : Nat) : Nat := rotr 7 x ^^^ rotr 18 x ^^^ (x >>> 3)

/-- SHA-256 small sigma 1. -/
def ssig1 (x : Nat) : Nat := rotr 17 x ^^^ rotr 19 x ^^^ (x >>> 10)

/-- SHA-256 choice function. -/
def chF (e f g : Nat) : Nat := (e &&& f) ^^^ ((4294967295 ^^^ e) &&& g)

/-- SHA-256 majority function. -/
def majF (a b c : Nat) : Nat := (a &&& b) ^^^ (a &&& c) ^^^ (b &&& c)

/-- The SHA-256 round constants (FIPS 180-4, here as decimal words). -/
def K64 : List Nat :=
  [1116352408, 1899447441, 3049323471, 3921009573,
   961987163, 1508970993, 2453635748, 2870763221,
   3624381080, 310598401, 607225278, 1426881987,
   1925078388, 2162078206, 2614888103, 3248222580,
   3835390401, 4022224774, 264347078, 604807628,
   770255983, 1249150122, 1555081692, 1996064986,
   2554220882, 2821834349, 2952996808, 3210313671,
   3336571891, 3584528711, 113926993, 338241895,
   666307205, 773529912, 1294757372, 1396182291,
   1695183700, 1986661051, 2177026350, 2456956037,
   2730485921, 2820302411, 3259730800, 3345764771,
   3516065817, 3600352804, 4094571909, 275423344,
   430227734, 506948616, 659060556, 883997877,
   958139571, 1322822218, 1537002063, 1747873779,
   1955562222, 2024104815, 2227730452, 2361852424,
   2428436474, 2756734187, 3204031479, 3329325298]

/-- The SHA-256 initial hash value (FIPS 180-4, as decimal words). -/
def H0 : List Nat :=
  [1779033703, 3144134277, 1013904242, 2773480762,
   1359893119, 2600822924, 528734635, 1541459225]

/-- Big-endian 4-byte encoding of a 32-bit word. -/
def be32 (n : Nat) : List Nat :=
  [n / 16777216 % 256, n / 65536 % 256, n / 256 % 256, n % 256]

/-- Big-endian 8-byte encoding of a 64-bit length. -/
def be64 (n : Nat) : List Nat :=
  [n / 72057594037927936 % 256, n / 281474976710656 % 256,
   n / 1099511627776 % 256, n / 4294967296 % 256,
   n / 16777216 % 256, n / 65536 % 256, n / 256 % 256, n % 256]

/-- SHA-256 message padding: `0x80`, zeros to 56 mod 64, then the bit
length as a big-endian 64-bit integer. -/
def sha256Pad (msg : List Nat) : List Nat :=
  let len := msg.length
  let padZeros := (119 - len % 64) % 64
  msg ++ [128] ++ List.replicate padZeros 0 ++ be64 (8 * len)

/-- Big-endian 32-bit words from a byte list. -/
def bytesToWords : List Nat → List Nat
  | b0 :: b1 :: b2 :: b3 :: rest =>
      (((b0 * 256 + b1) * 256 + b2) * 256 + b3) :: bytesToWords rest
  | _ => []

/-- 64-byte blocks of a byte list (fuel-structured; the wrapper supplies
enough fuel for any input). -/
def blocks64F : Nat → List Nat → List (List Nat)
  | 0, _ => []
  | _, [] => []
  | fuel + 1, l => l.take 64 :: blocks64F fuel (l.drop 64)

/-- 64-byte blocks of a byte list. -/
def blocks64 (l : List Nat) : List (List Nat) := blocks64F (l.length + 1) l

/-- The 64-entry SHA-256 message schedule of one block's 16 words. -/
def sha256Schedule (w0 : List Nat) : List Nat :=
  (List.range 48).foldl
    (fun w i =>
      let t := i + 16
      w ++ [(ssig1 (w.getD (t - 2) 0) + w.getD (t - 7) 0 +
             ssig0 (w.getD (t - 15) 0) + w.getD (t - 16) 0) % M32])
    w0

/-- The SHA-256 compression function: fold 64 rounds over one block and
add the result into the chaining state. -/
def sha256Compress (hs : List Nat) (block : List Nat) : List Nat :=
  let w := sha256Schedule (bytesToWords block)
  let st := (List.range 64).foldl
    (fun st t =>
      match st with
      | [a, b, c, d, e, f, g, h] =>
          let T1 := (h + bsig1 e + chF e f g + K64.getD t 0 + w.getD t 0) % M32
          let T2 := (bsig0 a + majF a b c) % M32
          [(T1 + T2) % M32, a, b, c, (d + T1) % M32, e, f, g]
      | st => st)
    hs
  match hs, st with
  | [h0, h1, h2, h3, h4, h5, h6, h7], [a, b, c, d, e, f, g, h] =>
      [(h0 + a) % M32, (h1 + b) % M32, (h2 + c) % M32, (h3 + d) % M32,
       (h4 + e) % M32, (h5 + f) % M32, (h6 + g) % M32, (h7 + h) % M32]
  | _, _ => hs

/-- SHA-256 of a byte list, as a 32-byte digest. -/
def sha256 (msg : List Nat) : List Nat :=
  let hs := (blocks64 (sha256Pad msg)).foldl sha256Compress H0
  hs.foldr (fun h acc => be32 h ++ acc) []

/-- HMAC-SHA256 (RFC 2104) of a message under a key, as a 32-byte digest. -/
def hmacSha256 (key msg : List Nat) : List Nat :=
  let k0 := if 64 < key.length then sha256 key else key
  let kPad := k0 ++ List.replicate (64 - k0.length) 0
  let ipad := kPad.map (fun b => b ^^^ 0x36)
  let opad := kPad.map (fun b => b ^^^ 0x5c)
  sha256 (opad ++ sha256 (ipad ++ msg))

/-- The base64 alphabet character for a 6-bit group. -/
def b64Char (n : Nat) : Char :=
  "ABCDEFGHIJKLMNOPQRSTUVWXYZabcdefghijklmnopqrstuvwxyz0123456789+/".data.getD n 'A'

/-- Standard base64 encoding with `=` padding (`digest('base64')`). -/
def base64Encode : List Nat → String
  | [] => ""
  | [b0] => ⟨[b64Char (b0 / 4), b64Char (b0 % 4 * 16)]⟩ ++ "=="
  | [b0, b1] =>
      ⟨[b64Char (b0 / 4), b64Char (b0 % 4 * 16 + b1 / 16),
        b64Char (b1 % 16 * 4)]⟩ ++ "="
  | b0 :: b1 :: b2 :: rest =>
      ⟨[b64Char (b0 / 4), b64Char (b0 % 4 * 16 + b1 / 16),
        b64Char (b1 % 16 * 4 + b2 / 64), b64Char (b2 % 64)]⟩ ++
        base64Encode rest

/-- `generateLarkWebhookSignature` from `src/lark.ts` lines 167-178:
base64 of the HMAC-SHA256 digest of the empty message under the key
`"<timestamp>\n<webhookKey>"`. -/
def generateLarkWebhookSignature (webhookKey : String) (timestamp : Int) : String :=
  base64Encode
    (hmacSha256 (utf8Bytes (toString timestamp ++ "\n" ++ webhookKey)) (utf8Bytes ""))

/-- `parseVariables` from `src/lark.ts` lines 95-123: empty or blank input
gives the empty mapping; an input that `JSON.parse`s to a non-null,
non-array object is returned as the mapping directly; anything else falls
back to key/value line parsing. -/
def parseVariables (input : Option String) : List (String × JSONValue) :=
  match input with
  | none => []
  | some s =>
    if jsTrim s = "" then []
    else
      match jsonParseE s with
      | .ok (.obj kvs) => kvs
      | _ => kvLinesVars s.data

/-- Split a Handlebars path expression at the dots. -/
def splitDots : List Char → List (List Char)
  | [] => [[]]
  | '.' :: cs => [] :: splitDots cs
  | c :: cs =>
    match splitDots cs with
    | [] => [[c]]
    | l :: ls => (c :: l) :: ls

/-- Walk the remaining segments of a dotted path through nested objects. -/
def resolvePath : List String → JSONValue → Option JSONValue
  | [], v => some v
  | k :: ks, .obj kvs =>
    match objLookup kvs k with
    | some v => resolvePath ks v
    | none => none
  | _ :: _, _ => none

/-- Handlebars variable resolution of a (possibly dotted) path against the
variable mapping; unknown paths resolve to nothing. -/
def lookupPath (p : List Char) (vars : List (String × JSONValue)) : Option JSONValue :=
  match splitDots p with
  | [] => none
  | k :: ks =>
    match objLookup vars ⟨k⟩ with
    | some v => resolvePath (ks.map fun l => ⟨l⟩) v
    | none => none

/-- Whitespace-separated tokens of a placeholder expression
(fuel-structured; the wrapper passes enough fuel). -/
def wsTokensF : Nat → List Char → List (List Char)
  | 0, _ => []
  | fuel + 1, cs =>
    let cs1 := cs.dropWhile isJsWs
    match cs1 with
    | [] => []
    | _ =>
      cs1.takeWhile (fun c => !isJsWs c) ::
        wsTokensF fuel (cs1.dropWhile fun c => !isJsWs c)

/-- Whitespace-separated tokens of a placeholder expression. -/
def wsTokens (cs : List Char) : List (List Char) := wsTokensF (cs.length + 1) cs

/-- Evaluation of the expression between a pair of double braces, for the
Handlebars subset this action relies on (§4.2 of the spec): a plain
variable or dotted path (unknown paths render as the empty string), or
one of the two registered helpers `json` and `jstr` applied to a path.
Other Handlebars constructs (block helpers, partials, triple-stache,
helper calls on missing arguments) are outside the modeled subset and no
claim exercises them; they render here as the empty string. -/
def evalExpr (inside : List Char) (vars : List (String × JSONValue)) : List Char :=
  match wsTokens inside with
  | [name, p] =>
    if name = "json".data then
      match lookupPath p vars with
      | some v => (jsonHelper v).data
      | none => []
    else if name = "jstr".data then
      match lookupPath p vars with
      | some v => (jstrHelper v).data
      | none => []
    else []
  | [p] =>
    match lookupPath p vars with
    | some v => (hbToString v).data
    | none => []
  | _ => []

/-- Scan for the closing pair of braces of a placeholder, returning the
expression before it and the input after it. -/
def findClose : List Char → Option (List Char × List Char)
  | [] => none
  | c :: cs =>
    if c = '\x7d' then
      match cs with
      | '\x7d' :: rest => some ([], rest)
      | _ => (fun p => (c :: p.1, p.2)) <$> findClose cs
    else (fun p => (c :: p.1, p.2)) <$> findClose cs

/-- Rendering loop of the compiled template: literal characters pass
through (`noEscape` disables HTML escaping), and each double-brace
placeholder is replaced by its evaluation. A placeholder with no closing
braces is outside the modeled subset (Handlebars raises a compile error;
no claim exercises it). Fuel-structured; the wrapper passes enough fuel. -/
def renderF : Nat → List Char → List (String × JSONValue) → List Char
  | 0, cs, _ => cs
  | _ + 1, [], _ => []
  | fuel + 1, c :: cs, vars =>
    if c = '\x7b' then
      match cs with
      | '\x7b' :: inner =>
        match findClose inner with
        | some (inside, rest) => evalExpr inside vars ++ renderF fuel rest vars
        | none => c :: cs
      | _ => c :: renderF fuel cs vars
    else c :: renderF fuel cs vars

/-- Rendering of a template against a variable mapping: the composition
`h.compile(template, noEscape)(vars)` of `buildBodyFromTemplate`, on the
Handlebars subset the action uses. -/
def renderTemplate (template : String) (vars : List (String × JSONValue)) : String :=
  ⟨renderF (template.data.length + 1) template.data vars⟩

/-- The result record of `buildBodyFromTemplate` (`BuildResult` in
`src/lark.ts`). -/
structure BuildResult where
  body : JSONValue
  interpolated : String

/-- The error message built at `src/lark.ts` lines 158-162 when the
interpolated text fails to parse as JSON. -/
def templateRenderErrorMsg (parseMsg interpolated : String) : String :=
  "Interpolated message_template is not valid JSON. Error: " ++ parseMsg ++
    ". Content: " ++ interpolated

/-- The body-validation step of `buildBodyFromTemplate` (`src/lark.ts`
lines 155-163): `JSON.parse` the interpolated text, wrapping a parse
failure in the diagnostic message that carries the full rendered text. -/
def validateBody (interpolated : String) : Except String JSONValue :=
  match jsonParseE interpolated with
  | .ok v => .ok v
  | .error msg => .error (templateRenderErrorMsg msg interpolated)

/-- `buildBodyFromTemplate` from `src/lark.ts` lines 136-165: parse the
variables, render the template against them, validate the rendered text
as JSON, and return both the parsed body and the interpolated text. -/
def buildBodyFromTemplate (template : String) (variablesInput : Option String) :
    Except String BuildResult :=
  let vars := parseVariables variablesInput
  let interpolated := renderTemplate template vars
  match validateBody interpolated with
  | .ok body => .ok ⟨body, interpolated⟩
  | .error e => .error e

/-- The error thrown at `src/lark.ts` lines 190-194 when signing is
requested on a non-object body (the `SigningPreconditionError` of the
spec's taxonomy). -/
def signingPreconditionMsg : String :=
  "Signing requires the message_template to be a JSON object to add timestamp and sign fields."

/-- The signing step of `sendLarkWebhook` (`src/lark.ts` lines 188-205),
the spec's `augment(body, secret, nowSeconds)`: an absent or
blank-after-trim secret passes the body through unchanged; a non-object
body with an effective secret fails with the signing-precondition error;
otherwise `timestamp` (decimal string of `nowSeconds`) and `sign` (the
computed signature) are assigned into a copy of the body, overwriting
fields of those names. The current time is a parameter here because real
time is an external collaborator. -/
def augmentBody (body : JSONValue) (secret : Option String) (nowSeconds : Int) :
    Except String JSONValue :=
  match secret with
  | none => .ok body
  | some s =>
    if jsTrim s = "" then .ok body
    else
      match body with
      | .obj kvs =>
          .ok (.obj (objSet
            (objSet kvs "timestamp" (.str (toString nowSeconds)))
            "sign" (.str (generateLarkWebhookSignature s nowSeconds))))
      | _ => .error signingPreconditionMsg

/-- What `sendLarkWebhook` does up to the `fetch` boundary: either the
signing precondition fails, or a single POST request is issued with the
serialized signed body and an abort timer configured from `timeoutMs`. -/
inductive SendOutcome where
  | precondFailure (msg : String)
  | request (url : String) (payload : String) (abortAfterMs : Option Int)

/-- The abort-timer setup of `src/lark.ts` lines 207-210: a timer is armed
only when `opts.timeoutMs` is truthy (present, parsed, and nonzero). -/
def truthyTimeout : Option Int → Option Int
  | some v => if v = 0 then none else some v
  | none => none

/-- `sendLarkWebhook` from `src/lark.ts` lines 181-223, modeled up to the
`fetch` call (the HTTP transport is an external collaborator): augment the
body, then issue one request carrying the JSON-serialized signed body and
the configured abort delay. -/
def sendLarkWebhook (url : String) (secret : Option String) (body : JSONValue)
    (timeoutMs : Option Int) (nowSeconds : Int) : SendOutcome :=
  match augmentBody body secret nowSeconds with
  | .error e => .precondFailure e
  | .ok signedBody => .request url (jsonStringify signedBody) (truthyTimeout timeoutMs)

/-- JS `parseInt(s, 10)`: skip leading whitespace, optional sign, then a
digit prefix; no digits means `NaN` (modeled as `none`). -/
def jsParseInt (s : String) : Option Int :=
  let cs := s.data.dropWhile isJsWs
  let (sign, cs1) : Int × List Char :=
    match cs with
    | '-' :: r => (-1, r)
    | '+' :: r => (1, r)
    | _ => (1, cs)
  let ds := cs1.takeWhile Char.isDigit
  if ds = [] then none else some (sign * Int.ofNat (digitsToNat ds))

/-- `src/main.ts` line 19: the empty input string is falsy and leaves the
timeout undefined; anything else goes through `parseInt(input, 10)`. -/
def runTimeoutMs (timeoutMsInput : String) : Option Int :=
  if timeoutMsInput = "" then none else jsParseInt timeoutMsInput

/-- The inputs `run` reads from the automation environment
(`src/main.ts` lines 11-17). -/
structure RunInputs where
  webhookUrl : String
  webhookSecret : Option String
  messageTemplate : String
  variablesInput : Option String
  dryRun : Bool
  timeoutMsInput : String
  failOnHttpError : Bool

/-- The observable outcome of `run` up to the dispatch boundary: the
dry-run outputs were set and `run` returned; or a dispatch was handed to
`sendLarkWebhook` with these arguments; or an error was caught and the
workflow was marked failed with its message. -/
inductive RunOutcome where
  | dryRunDone (ok : Bool) (status : Int) (responseText : String)
  | dispatch (url : String) (secret : Option String) (body : JSONValue)
      (timeoutMs : Option Int)
  | failed (msg : String)

/-- Whether the run was marked failed. -/
def RunOutcome.isFailed : RunOutcome → Bool
  | .failed _ => true
  | _ => false

/-- `run` from `src/main.ts` lines 9-56, up to the dispatch boundary:
build the body from the template and variables (an error here is caught
and fails the run); in dry-run mode set the outputs `ok=true`, `status=0`,
`response_text="dry_run"` and return without touching the Dispatcher;
otherwise hand the body to `sendLarkWebhook`. -/
def runModel (i : RunInputs) : RunOutcome :=
  let timeoutMs := runTimeoutMs i.timeoutMsInput
  match buildBodyFromTemplate i.messageTemplate i.variablesInput with
  | .error msg => .failed msg
  | .ok r =>
    if i.dryRun then .dryRunDone true 0 "dry_run"
    else .dispatch i.webhookUrl i.webhookSecret r.body timeoutMs

/-- Modelled from the spec: the action metadata file (not under `src/`)
declares the default for the optional `request_timeout_ms` input, so the
string `run` reads is `"10000"` when the input is absent or empty
("decimal integer, default 10000 when absent/empty", spec §6). -/
def getTimeoutMsInput : Option String → String
  | none => "10000"
  | some s => if s = "" then "10000" else s

/-- The abort delay the dispatched request ends up configured with, as a
function of the externally provided `request_timeout_ms` input: the
composition of the input default, `src/main.ts` line 19, and the timer
setup of `src/lark.ts` lines 207-210. -/
def requestAbortDelay (provided : Option String) : Option Int :=
  truthyTimeout (runTimeoutMs (getTimeoutMsInput provided))

/-- Whether a JSON value is an object (the only shape `sendLarkWebhook`
accepts for signing). -/
def JSONValue.isObj : JSONValue → Bool
  | .obj _ => true
  | _ => false

/-- The two fields signing assigns into an object body: `timestamp` then
`sign`, each via JS property assignment (`objSet`). -/
def signedBodyFields (kvs : List (String × JSONValue)) (s : String) (ts : Int) :
    List (String × JSONValue) :=
  objSet (objSet kvs "timestamp" (.str (toString ts)))
    "sign" (.str (generateLarkWebhookSignature s ts))

/-! ## Supporting lemmas -/

theorem objLookup_objSet_self (kvs : List (String × JSONValue)) (k : String)
    (v : JSONValue) : objLookup (objSet kvs k v) k = some v := by
  induction kvs with
  | nil => simp [objSet, objLookup]
  | cons kv rest ih =>
    obtain ⟨k', v'⟩ := kv
    by_cases h : k' = k
    · simp [objSet, objLookup, h]
    · simp [objSet, objLookup, h, ih]

theorem objLookup_objSet_ne (kvs : List (String × JSONValue)) (k k' : String)
    (v : JSONValue) (h : k' ≠ k) :
    objLookup (objSet kvs k v) k' = objLookup kvs k' := by
  have h' : ¬ k = k' := fun hh => h hh.symm
  induction kvs with
  | nil => simp [objSet, objLookup, h']
  | cons kv rest ih =>
    obtain ⟨k0, v0⟩ := kv
    by_cases h0 : k0 = k
    · subst h0
      simp [objSet, objLookup, h']
    · simp [objSet, objLookup, h0, ih]

theorem jstrHelper_str (s : String) : jstrHelper (.str s) = jsonEscapeString s := by
  show jsSlice1m1 ⟨'"' :: (escList s.data ++ ['"'])⟩ = ⟨escList s.data⟩
  show String.mk ((('"' :: (escList s.data ++ ['"'])).drop 1).dropLast) = _
  exact congrArg String.mk (by simp [List.dropLast_concat])

/-! ## Claim theorems -/

/-- C1 (counterexample to the claim as stated): with a non-empty secret
and a template rendering to a non-object body (`"[1]"`), a dry run does
NOT perform the signing-precondition check and does not fail: the run
ends with outputs `ok=true`, `status=0`, `response_text="dry_run"`. The
claim predicted that such a run fails. -/
theorem dry_run_skips_signing_check :
    runModel ⟨"https://example.invalid", some "abc", "[1]", none, true, "", true⟩ =
      .dryRunDone true 0 "dry_run" ∧
    (runModel ⟨"https://example.invalid", some "abc", "[1]", none, true, "", true⟩).isFailed
      = false := by
  exact ⟨rfl, rfl⟩

/-- C1 (amended): in dry-run mode, for every template, variables input and
secret, the program renders and validates the body exactly as a normal
run would, then returns with outputs `ok=true`, `status=0`,
`response_text="dry_run"` without ever reaching the Dispatcher — the
signing-precondition check, which lives inside the Dispatcher call, is
skipped along with it, so a non-object body with a non-empty secret still
succeeds in dry-run. -/
theorem dry_run_outputs (i : RunInputs) (r : BuildResult)
    (hb : buildBodyFromTemplate i.messageTemplate i.variablesInput = .ok r)
    (hd : i.dryRun = true) :
    runModel i = .dryRunDone true 0 "dry_run" := by
  simp [runModel, hb, hd]

/-- Witness for C1's amended theorem at a concrete dry run. -/
theorem dry_run_outputs_witness :
    runModel ⟨"https://example.invalid", none, "\x7b\"a\":1\x7d", none, true, "1000", true⟩ =
      .dryRunDone true 0 "dry_run" :=
  dry_run_outputs _ ⟨.obj [("a", .num ⟨1, 0⟩)], "\x7b\"a\":1\x7d"⟩ rfl rfl

/-- C2: an absent or empty `request_timeout_ms` input yields the default
abort delay of 10000 milliseconds (the default is supplied by the action
metadata, modeled from the spec); a present, positive, valid decimal
integer input yields an abort delay of exactly that many milliseconds. -/
theorem request_timeout_spec (provided : Option String) :
    ((provided = none ∨ provided = some "") → requestAbortDelay provided = some 10000) ∧
    (∀ s n, provided = some s → s.data.all Char.isDigit →
      jsParseInt s = some n → 0 < n → requestAbortDelay provided = some n) := by
  constructor
  · rintro (rfl | rfl) <;> rfl
  · rintro s n rfl hdig hparse hpos
    have hne : s ≠ "" := by
      intro h
      subst h
      simp [jsParseInt, digitsToNat] at hparse
    have hn0 : n ≠ 0 := by omega
    simp [requestAbortDelay, getTimeoutMsInput, runTimeoutMs, hne, hparse,
      truthyTimeout, hn0]

/-- Witness for C2 at the default and at a concrete positive timeout. -/
theorem request_timeout_witness :
    requestAbortDelay none = some 10000 ∧
    requestAbortDelay (some "250") = some 250 :=
  ⟨(request_timeout_spec none).1 (Or.inl rfl),
   (request_timeout_spec (some "250")).2 "250" 250 rfl (by decide) (by decide)
     (by decide)⟩

/-- C3 (counterexample to the claim as stated): for the boolean value
`true`, whose serialization `"true"` neither begins nor ends with a
double-quote character, the claim predicts `jstr` removes nothing; the
code's `slice(1, -1)` nevertheless removes the first and last characters,
producing `"ru"`. -/
theorem jstr_nonstring_counterexample :
    jstrHelper (.bool true) = "ru" ∧ jsonStringify (.bool true) = "true" ∧
    jstrHelper (.bool true) ≠ jsonStringify (.bool true) :=
  ⟨rfl, rfl, by decide⟩

/-- C3 (amended): `jstr` inserts the JSON serialization of the value with
its first and last characters removed unconditionally. For string values
those two characters are exactly the leading and trailing double quotes,
so the escaped string contents are inserted; for non-string values
content characters are removed instead (for example `jstr` of the boolean
`true` inserts `ru`). -/
theorem jstr_slices_serialization (v : JSONValue) :
    jstrHelper v = jsSlice1m1 (jsonStringify v) ∧
    (∀ s, v = .str s → jstrHelper v = jsonEscapeString s) ∧
    jstrHelper (.bool true) = "ru" := by
  refine ⟨rfl, ?_, rfl⟩
  rintro s rfl
  exact jstrHelper_str s

/-- Witness for C3's amended theorem at a string containing a quote. -/
theorem jstr_slices_serialization_witness :
    jstrHelper (.str "a\"b") = jsonEscapeString "a\"b" ∧
    jsonEscapeString "a\"b" = "a\\\"b" :=
  ⟨(jstr_slices_serialization (.str "a\"b")).2.1 "a\"b" rfl, by decide⟩

/-- C7: validating rendered text that is not syntactically valid JSON
fails with the template-render error whose message is exactly the
diagnostic prefix, the underlying parse-failure description, the literal
`". Content: "`, and the full rendered text verbatim; validating text
that is valid JSON returns its JSON decode with no error. -/
theorem validateBody_spec (text : String) :
    (∀ d, jsonParseE text = .error d →
      validateBody text = .error
        ("Interpolated message_template is not valid JSON. Error: " ++ d ++
          ". Content: " ++ text)) ∧
    (∀ v, jsonParseE text = .ok v → validateBody text = .ok v) := by
  constructor
  · intro d hd
    simp [validateBody, hd, templateRenderErrorMsg]
  · intro v hv
    simp [validateBody, hv]

/-- Witness for C7 at a failing and at a succeeding rendered text. -/
theorem validateBody_spec_witness :
    validateBody "oops" = .error
      "Interpolated message_template is not valid JSON. Error: Unexpected token o in JSON. Content: oops" ∧
    validateBody "[1]" = .ok (.arr [.num ⟨1, 0⟩]) :=
  ⟨(validateBody_spec "oops").1 "Unexpected token o in JSON" rfl,
   (validateBody_spec "[1]").2 (.arr [.num ⟨1, 0⟩]) rfl⟩

/-- C5: with an absent or empty/whitespace-only secret, `augment` returns
the body unchanged for every body shape; with an effective (non-blank)
secret, a body whose top level is not an object fails with the
signing-precondition error. -/
theorem augment_secret_gate (body : JSONValue) (secret : Option String) (ts : Int) :
    ((∀ s, secret = some s → jsTrim s = "") →
      augmentBody body secret ts = .ok body) ∧
    (∀ s, secret = some s → jsTrim s ≠ "" → body.isObj = false →
      augmentBody body secret ts = .error signingPreconditionMsg) := by
  constructor
  · intro h
    match secret with
    | none => rfl
    | some s => simp [augmentBody, h s rfl]
  · rintro s rfl hne hobj
    cases body <;> simp_all [augmentBody, hne, JSONValue.isObj]

/-- Witness for C5: a list body with a real secret fails the
precondition; a scalar body passes through under a whitespace-only secret
and under an absent secret. -/
theorem augment_secret_gate_witness :
    augmentBody (.arr [.num ⟨1, 0⟩]) (some "abc") 0 = .error signingPreconditionMsg ∧
    augmentBody (.str "x") (some " ") 3 = .ok (.str "x") ∧
    augmentBody (.bool false) none 9 = .ok (.bool false) :=
  ⟨(augment_secret_gate (.arr [.num ⟨1, 0⟩]) (some "abc") 0).2 "abc" rfl
      (by decide) rfl,
   (augment_secret_gate (.str "x") (some " ") 3).1
      (by intro s hs; cases hs; decide),
   (augment_secret_gate (.bool false) none 9).1 (by intro s hs; cases hs)⟩

/-- C6: signing an object body with an effective secret returns a new
mapping whose `timestamp` field is the decimal string of `nowSeconds` and
whose `sign` field is the computed signature — both overwriting any
pre-existing fields of those names — while every other field looks up to
exactly its value in the original body. -/
theorem augment_object_fields (kvs : List (String × JSONValue)) (s : String)
    (ts : Int) (h : jsTrim s ≠ "") :
    augmentBody (.obj kvs) (some s) ts = .ok (.obj (signedBodyFields kvs s ts)) ∧
    objLookup (signedBodyFields kvs s ts) "timestamp" = some (.str (toString ts)) ∧
    objLookup (signedBodyFields kvs s ts) "sign" =
      some (.str (generateLarkWebhookSignature s ts)) ∧
    ∀ k, k ≠ "timestamp" → k ≠ "sign" →
      objLookup (signedBodyFields kvs s ts) k = objLookup kvs k := by
  refine ⟨by simp [augmentBody, h, signedBodyFields], ?_, ?_, ?_⟩
  · rw [signedBodyFields, objLookup_objSet_ne _ _ _ _ (by decide),
      objLookup_objSet_self]
  · rw [signedBodyFields, objLookup_objSet_self]
  · intro k hk1 hk2
    rw [signedBodyFields, objLookup_objSet_ne _ _ _ _ hk2,
      objLookup_objSet_ne _ _ _ _ hk1]

/-- Witness for C6 on a body that already carries a `timestamp` field: the
field is overwritten and an unrelated field is untouched. -/
theorem augment_object_fields_witness :
    augmentBody (.obj [("msg", .str "m"), ("timestamp", .str "old")]) (some "abc") 5 =
      .ok (.obj (signedBodyFields [("msg", .str "m"), ("timestamp", .str "old")] "abc" 5)) ∧
    objLookup (signedBodyFields [("msg", .str "m"), ("timestamp", .str "old")] "abc" 5)
      "timestamp" = some (.str "5") ∧
    objLookup (signedBodyFields [("msg", .str "m"), ("timestamp", .str "old")] "abc" 5)
      "msg" = objLookup [("msg", .str "m"), ("timestamp", .str "old")] "msg" :=
  ⟨(augment_object_fields _ "abc" 5 (by decide)).1,
   (augment_object_fields _ "abc" 5 (by decide)).2.1,
   (augment_object_fields _ "abc" 5 (by decide)).2.2.2 "msg" (by decide) (by decide)⟩

set_option maxRecDepth 40000 in
/-- C4: for every non-empty secret and integer `nowSeconds`, the computed
signature is the base64 encoding of the HMAC-SHA256 digest of the empty
message under the key formed by the decimal string of `nowSeconds`, a
newline, then the secret; the computation is a pure function (identical
inputs give identical output), and for the spec's concrete example —
secret `"abc"`, `nowSeconds = 1700000000` — it reproduces the reference
digest value. -/
theorem signature_spec (secret : String) (ts : Int) (h : secret ≠ "") :
    generateLarkWebhookSignature secret ts =
      base64Encode
        (hmacSha256 (utf8Bytes (toString ts ++ "\n" ++ secret)) (utf8Bytes "")) ∧
    generateLarkWebhookSignature secret ts = generateLarkWebhookSignature secret ts ∧
    (secret = "abc" → ts = 1700000000 →
      generateLarkWebhookSignature secret ts =
        "VIS10b0EBvzzSdFnuk4tznEmK5wHaruvf/WnViv2yR4=") := by
  refine ⟨rfl, rfl, ?_⟩
  rintro rfl rfl
  decide

set_option maxRecDepth 40000 in
/-- Witness for C4 at the spec's concrete signing example. -/
theorem signature_spec_witness :
    generateLarkWebhookSignature "abc" 1700000000 =
      "VIS10b0EBvzzSdFnuk4tznEmK5wHaruvf/WnViv2yR4=" :=
  (signature_spec "abc" 1700000000 (by decide)).2.2 rfl rfl

theorem dropWhile_head_false (p : Char → Bool) (l : List Char) (a : Char)
    (t : List Char) (h : l.dropWhile p = a :: t) : p a = false := by
  induction l with
  | nil => simp at h
  | cons c cs ih =>
    by_cases hc : p c
    · rw [List.dropWhile_cons, if_pos hc] at h
      exact ih h
    · rw [List.dropWhile_cons, if_neg hc] at h
      cases h
      simpa using hc

theorem jsTrim_blank_all_ws (s : String) (h : jsTrim s = "") :
    ∀ c ∈ s.data, isJsWs c = true := by
  have hdata : jsTrimList s.data = [] := congrArg String.data h
  have hrd : List.rdropWhile isJsWs (s.data.dropWhile isJsWs) = [] := hdata
  have hdrop : ∀ c ∈ s.data.dropWhile isJsWs, isJsWs c = true :=
    List.rdropWhile_eq_nil_iff.mp hrd
  intro c hc
  rw [← List.takeWhile_append_dropWhile isJsWs s.data] at hc
  rcases List.mem_append.mp hc with h1 | h2
  · exact List.mem_takeWhile_imp h1
  · exact hdrop c h2

/-- A string whose JS trim is empty consists of whitespace only, and
`JSON.parse` rejects it: there is no JSON token to read. -/
theorem jsonParseE_blank (s : String) (h : jsTrim s = "") :
    ∀ v, jsonParseE s ≠ .ok v := by
  intro v hok
  have hall := jsTrim_blank_all_ws s h
  have hfuel : 2 * s.data.length + 8 = (2 * s.data.length + 7) + 1 := by omega
  rw [jsonParseE, hfuel] at hok
  rcases hskip : skipWs s.data with _ | ⟨c, t⟩
  · rw [hskip] at hok
    simp [parseVal] at hok
  · have hmem : c ∈ s.data := (List.dropWhile_suffix isJsonWs).subset (by
      rw [show s.data.dropWhile isJsonWs = c :: t from hskip]; exact List.mem_cons_self c t)
    have hws : isJsWs c = true := hall c hmem
    have hnws : isJsonWs c = false := dropWhile_head_false _ _ _ _ hskip
    have hc : c = '\x0b' ∨ c = '\x0c' := by
      simp [isJsWs] at hws
      simp [isJsonWs] at hnws
      tauto
    rw [hskip] at hok
    rcases hc with rfl | rfl <;> simp [parseVal] at hok

/-- C9: every input string that `JSON.parse`s to a (non-null, non-array)
object is passed through `parseVariables` as exactly that decoded
mapping — values as-is, no further coercion. -/
theorem parseVariables_json_object (s : String) (kvs : List (String × JSONValue))
    (h : jsonParseE s = .ok (.obj kvs)) : parseVariables (some s) = kvs := by
  have hb : jsTrim s ≠ "" := fun hblank => jsonParseE_blank s hblank _ h
  simp [parseVariables, hb, h]

/-- Witness for C9 at a concrete JSON-object variables input. -/
theorem parseVariables_json_object_witness :
    parseVariables (some "\x7b\"a\": true, \"n\": 1\x7d") =
      [("a", .bool true), ("n", .num ⟨1, 0⟩)] :=
  parseVariables_json_object _ _ (by rfl)

/-- `input.split(/\r?\n/)` on a newline-free input yields that single
line. -/
theorem splitLines_no_newline (cs : List Char) (h : '\n' ∉ cs) :
    splitLinesList cs = [cs] := by
  induction cs with
  | nil => rfl
  | cons c cs ih =>
    have hc : c ≠ '\n' := by rintro rfl; exact h (List.mem_cons_self _ _)
    have hcs : '\n' ∉ cs := fun hm => h (List.mem_cons_of_mem _ hm)
    rw [splitLinesList.eq_def]
    split
    · next x heq => simp at heq
    · next x cs1 heq =>
        exfalso
        injection heq with hh1 hh2
        subst hh2
        exact hcs (List.mem_cons_self _ _)
    · next x cs1 heq =>
        exfalso
        injection heq with hh1 hh2
        exact hc hh1
    · next x c1 cs1 heq h1 h2 =>
        injection h2 with hh1 hh2
        subst hh1
        subst hh2
        rw [ih hcs]

/-- A `dropWhile` that preserves the length removed nothing. -/
theorem dropWhile_eq_self_of_length (p : Char → Bool) (l : List Char)
    (h : (l.dropWhile p).length = l.length) : l.dropWhile p = l := by
  cases l with
  | nil => rfl
  | cons c cs =>
    rw [List.dropWhile_cons]
    by_cases hc : p c
    · exfalso
      rw [List.dropWhile_cons, if_pos hc] at h
      have := (List.dropWhile_suffix (l := cs) p).length_le
      simp at h
      omega
    · rw [if_neg hc]

/-- A JS-trim fixpoint is a fixpoint of the left trim and of the right
trim separately. -/
theorem trim_fix_parts (rest : List Char) (htrim : jsTrimList rest = rest) :
    rest.dropWhile isJsWs = rest ∧ List.rdropWhile isJsWs rest = rest := by
  have hlen1 : (List.rdropWhile isJsWs (rest.dropWhile isJsWs)).length ≤
      (rest.dropWhile isJsWs).length := by
    have h := (List.dropWhile_suffix (l := (rest.dropWhile isJsWs).reverse) isJsWs).length_le
    simpa [List.rdropWhile] using h
  have h2 : rest.length ≤ (rest.dropWhile isJsWs).length := by
    have hlen2 := congrArg List.length htrim
    have : jsTrimList rest = List.rdropWhile isJsWs (rest.dropWhile isJsWs) := rfl
    rw [this] at hlen2
    omega
  have h3 : (rest.dropWhile isJsWs).length ≤ rest.length :=
    (List.dropWhile_suffix _).length_le
  have hL : rest.dropWhile isJsWs = rest :=
    dropWhile_eq_self_of_length _ _ (by omega)
  refine ⟨hL, ?_⟩
  have : jsTrimList rest = List.rdropWhile isJsWs (rest.dropWhile isJsWs) := rfl
  rw [this, hL] at htrim
  exact htrim

/-- Prepending a non-whitespace character preserves being right-trimmed. -/
theorem rdropWhile_fix_cons (c : Char) (rest : List Char) (hc : isJsWs c = false)
    (hR : List.rdropWhile isJsWs rest = rest) :
    List.rdropWhile isJsWs (c :: rest) = c :: rest := by
  rcases Decidable.em (rest = []) with rfl | hne
  · rw [List.rdropWhile_singleton, if_neg (by simp [hc])]
  · rw [List.rdropWhile_eq_self_iff]
    intro _
    rw [List.getLast_cons hne]
    exact (List.rdropWhile_eq_self_iff.mp hR) hne

/-- C10: in key/value fallback mode, a trimmed line whose first character
is the separator `=` or `:` is not skipped: the lazy key group of the
line pattern admits an empty match, so the line produces a mapping entry
whose key is the empty string and whose value is the coerced trimmed
remainder of the line. (The whole input here is that one line, so the
JSON-first attempt fails and the key/value fallback runs.) -/
theorem parseVariables_sep_first (c : Char) (rest : List Char)
    (hc : c = '=' ∨ c = ':') (hnl : '\n' ∉ rest)
    (htrim : jsTrimList rest = rest) :
    parseVariables (some ⟨c :: rest⟩) = [("", coerceValue ⟨rest⟩)] := by
  obtain ⟨hL, hR⟩ := trim_fix_parts rest htrim
  have hfuel : ∀ a : Nat, 2 * a + 8 = (2 * a + 7) + 1 := fun _ => rfl
  have hcws : isJsWs c = false := by rcases hc with rfl | rfl <;> decide
  have hcjw : isJsonWs c = false := by rcases hc with rfl | rfl <;> decide
  have hchash : c ≠ '#' := by rcases hc with rfl | rfl <;> decide
  have hq : ¬(c = '"') := by rcases hc with rfl | rfl <;> decide
  have ht : ¬(c = 't') := by rcases hc with rfl | rfl <;> decide
  have hf : ¬(c = 'f') := by rcases hc with rfl | rfl <;> decide
  have hn : ¬(c = 'n') := by rcases hc with rfl | rfl <;> decide
  have hlb : ¬(c = '[') := by rcases hc with rfl | rfl <;> decide
  have hob : ¬(c = '\x7b') := by rcases hc with rfl | rfl <;> decide
  have hnum : ¬(c = '-' ∨ c.isDigit = true) := by
    rcases hc with rfl | rfl <;> decide
  have hnlc : '\n' ∉ c :: rest := by
    intro hm
    rcases List.mem_cons.mp hm with h1 | h2
    · rcases hc with rfl | rfl <;> simp at h1
    · exact hnl h2
  have hctrim : jsTrimList (c :: rest) = c :: rest := by
    show List.rdropWhile isJsWs ((c :: rest).dropWhile isJsWs) = c :: rest
    rw [List.dropWhile_cons, if_neg (by simp [hcws])]
    exact rdropWhile_fix_cons c rest hcws hR
  have hnotblank : jsTrim ⟨c :: rest⟩ ≠ "" := by
    intro hb
    have hdata : jsTrimList (c :: rest) = [] := congrArg String.data hb
    rw [hctrim] at hdata
    simp at hdata
  have hjson : jsonParseE ⟨c :: rest⟩ =
      .error ("Unexpected token " ++ String.singleton c ++ " in JSON") := by
    simp only [jsonParseE]
    rw [hfuel]
    have hskip : skipWs (String.mk (c :: rest)).data = c :: rest := by
      simp [skipWs, List.dropWhile_cons, hcjw]
    rw [hskip]
    simp [parseVal, hq, ht, hf, hn, hlb, hob, hnum]
  simp only [parseVariables]
  rw [if_neg hnotblank, hjson]
  simp only [kvLinesVars]
  rw [splitLines_no_newline _ hnlc]
  simp only [List.map_cons, List.map_nil, hctrim]
  rw [List.filter_cons_of_pos (by simp [hchash]), List.filter_nil]
  simp only [List.foldl_cons, List.foldl_nil]
  rw [show firstSepSplit (c :: rest) = some ([], rest) from by
    simp [firstSepSplit, hc]]
  show objSet [] ⟨jsTrimList []⟩ (coerceValue ⟨jsTrimList rest⟩) =
    [("", coerceValue ⟨rest⟩)]
  rw [htrim]
  rfl

/-- Witness for C10 at the line `"=foo"`. -/
theorem parseVariables_sep_first_witness :
    parseVariables (some "=foo") = [("", coerceValue "foo")] ∧
    coerceValue "foo" = .str "foo" :=
  ⟨parseVariables_sep_first '=' "foo".data (Or.inl rfl) (by decide) (by decide),
   rfl⟩

/-- Hex digits emitted by `hex4` for a value below 32 are hex digits and
decode back to the value. -/
theorem hexRound : ∀ n, n < 32 →
    (isHexDigit (hexDigitChar (n / 4096 % 16)) = true ∧
     isHexDigit (hexDigitChar (n / 256 % 16)) = true ∧
     isHexDigit (hexDigitChar (n / 16 % 16)) = true ∧
     isHexDigit (hexDigitChar (n % 16)) = true) ∧
    ((hexDigitVal (hexDigitChar (n / 4096 % 16)) * 16 +
      hexDigitVal (hexDigitChar (n / 256 % 16))) * 16 +
      hexDigitVal (hexDigitChar (n / 16 % 16))) * 16 +
      hexDigitVal (hexDigitChar (n % 16)) = n := by decide

/-- Round trip at the heart of C8: the JSON string-body lexer inverts the
`JSON.stringify` escape on every character list. -/
theorem lexString_escList (l : List Char) : ∀ rest : List Char,
    lexString (escList l ++ '"' :: rest) = some (l, rest) := by
  induction l with
  | nil =>
    intro rest
    rw [escList, List.nil_append, lexString.eq_def]
    rfl
  | cons c cs ih =>
    intro rest
    rw [escList, List.append_assoc]
    by_cases h1 : c = '"'
    · subst h1
      rw [show jsonEscapeChar '"' = ['\\', '"'] from rfl]
      rw [List.cons_append, List.cons_append, List.nil_append,
        lexString.eq_def]
      simp [escDecode, ih]
    · by_cases h2 : c = '\\'
      · subst h2
        rw [show jsonEscapeChar '\\' = ['\\', '\\'] from rfl]
        rw [List.cons_append, List.cons_append, List.nil_append,
          lexString.eq_def]
        simp [escDecode, ih]
      · by_cases h3 : c = '\x08'
        · subst h3
          rw [show jsonEscapeChar '\x08' = ['\\', 'b'] from rfl]
          rw [List.cons_append, List.cons_append, List.nil_append,
            lexString.eq_def]
          simp [escDecode, ih]
        · by_cases h4 : c = '\t'
          · subst h4
            rw [show jsonEscapeChar '\t' = ['\\', 't'] from rfl]
            rw [List.cons_append, List.cons_append, List.nil_append,
              lexString.eq_def]
            simp [escDecode, ih]
          · by_cases h5 : c = '\n'
            · subst h5
              rw [show jsonEscapeChar '\n' = ['\\', 'n'] from rfl]
              rw [List.cons_append, List.cons_append, List.nil_append,
                lexString.eq_def]
              simp [escDecode, ih]
            · by_cases h6 : c = '\x0c'
              · subst h6
                rw [show jsonEscapeChar '\x0c' = ['\\', 'f'] from rfl]
                rw [List.cons_append, List.cons_append, List.nil_append,
                  lexString.eq_def]
                simp [escDecode, ih]
              · by_cases h7 : c = '\r'
                · subst h7
                  rw [show jsonEscapeChar '\r' = ['\\', 'r'] from rfl]
                  rw [List.cons_append, List.cons_append, List.nil_append,
                    lexString.eq_def]
                  simp [escDecode, ih]
                · by_cases h8 : c.toNat < 32
                  · obtain ⟨⟨ha, hb, hc2, hd⟩, hval⟩ := hexRound c.toNat h8
                    rw [show jsonEscapeChar c = '\\' :: 'u' :: hex4 c.toNat from by
                      simp [jsonEscapeChar, h1, h2, h3, h4, h5, h6, h7, h8]]
                    rw [hex4]
                    rw [List.cons_append, List.cons_append, List.cons_append,
                      List.cons_append, List.cons_append, List.cons_append,
                      List.nil_append, lexString.eq_def]
                    simp only [reduceIte, ha, hb, hc2, hd, and_self, if_true,
                      hval, Char.ofNat_toNat, ih]
                    rfl
                  · rw [show jsonEscapeChar c = [c] from by
                      simp [jsonEscapeChar, h1, h2, h3, h4, h5, h6, h7, h8]]
                    rw [List.cons_append, List.nil_append, lexString.eq_def]
                    simp [h1, h2, h8, ih]

/-- C8: for every string value `v`, rendering `\x7b\x7bjstr x\x7d\x7d`
between an existing pair of double quotes in a template yields text that
parses as JSON, and its decode is exactly the original string `v` — the
escaping `jstr` inserts is correct, including for strings containing
double-quote or backslash characters. -/
theorem jstr_in_quotes_roundtrip (s : String) :
    jsonParseE (renderTemplate "\"\x7b\x7bjstr x\x7d\x7d\"" [("x", .str s)]) =
      .ok (.str s) := by
  have hfuel : ∀ a : Nat, 2 * a + 8 = (2 * a + 7) + 1 := fun _ => rfl
  have hrender : renderTemplate "\"\x7b\x7bjstr x\x7d\x7d\"" [("x", .str s)] =
      ⟨'"' :: ((jstrHelper (.str s)).data ++ ['"'])⟩ := rfl
  rw [hrender, jstrHelper_str s]
  show jsonParseE ⟨'"' :: (escList s.data ++ ['"'])⟩ = .ok (.str s)
  simp only [jsonParseE]
  rw [hfuel]
  rw [show skipWs (String.mk ('"' :: (escList s.data ++ ['"']))).data =
      '"' :: (escList s.data ++ ['"']) from by
    simp [skipWs, List.dropWhile_cons, isJsonWs]]
  simp only [parseVal, reduceIte]
  rw [lexString_escList s.data []]
  rfl
